import Mathlib
set_option maxRecDepth 8192

/-!
Verification development for the ARPA2 lifecyclemanagement PulleyBack driver
(src/lifecycle.c, src/lifecycle.h).  The C data structures and functions are
shallowly embedded: NUL-terminated C strings become `List Char` (without the
terminator; reads of the terminator are modelled by `getC`, which returns the
NUL character past the end), byte buffers become `List Nat`, `time_t` becomes
`Int` (64-bit signed, the common LP64 platform), and the singly linked
`lcstate` chains hanging off an `lcobject` become a `List LcState` together
with `Nat` offsets standing for the three region pointers (a NULL pointer is
encoded as the offset `chain.length`, which no node occupies).
-/

/-! ### Utility functions (lifecycle.c, UTILITY FUNCTIONS section) -/

/-- The NUL character, used to model reads of the C string terminator. -/
def nulChar : Char := Char.ofNat 0

/-- Read character `i` of a C string; past the end this is the NUL terminator. -/
def getC (s : List Char) (i : Nat) : Char := s.getD i nulChar

/-- Character class used by `idlen`: `isalnum (c) || (c == '-') || (c == '_')`. -/
def isIdChar (c : Char) : Bool := c.isAlphanum || c = '-' || c = '_'

/-- Find the length of an identifier (lifecycle.c `idlen`). -/
def idlen (s : List Char) : Nat := (s.takeWhile isIdChar).length

/-- Find the "type" of an event, usually a commercial-at or question mark or
equals sign but possibly NUL (lifecycle.c `find_type`):
the character just past the identifier. -/
def find_type (next : List Char) : Char := getC next (idlen next)

/-- Index form of lifecycle.c `strchrnul`: the index of the first occurrence
of `c` in `s`, or `s.length` (the position of the terminating NUL) when `c`
does not occur. -/
def strchrnulIdx (s : List Char) (c : Char) : Nat := s.findIdx (fun d => d = c)

/-- Worker for `strstrIdx`, scanning positions left to right. -/
def strstrIdxGo (need : List Char) : List Char → Nat → Option Nat
  | [], i => if need.isPrefixOf ([] : List Char) then some i else none
  | s@(_ :: rest), i => if need.isPrefixOf s then some i else strstrIdxGo need rest (i + 1)

/-- Index form of C `strstr`: the index of the first occurrence of `need`
as a contiguous sublist of `hay`. -/
def strstrIdx (hay need : List Char) : Option Nat := strstrIdxGo need hay 0

/-- Equality reading of lifecycle.c `strmemcmp`: `strmemcmp (str, mem, memlen)`
returns 0 exactly when the NUL-terminated `str` equals the `memlen`-byte
region `mem`, i.e. when the two strings are equal. -/
def strmemcmpZero (str mem : List Char) : Bool := str == mem

/-! ### The lifecycleState structure (lifecycle.h `struct lcstate`) -/

/-- One lifecycleState attribute value (lifecycle.h `struct lcstate`), minus
the intrusive `lcs_next` pointer, which is represented by list structure. -/
structure LcState where
  txt_attr : List Char
  tim_next : Int
  ofs_next : Nat
  typ_next : Char
  cnt_missed : Nat
deriving DecidableEq, Repr

/-- The dot separator `" . "` scanned for by `new_lcstate`. -/
def spcDotSpc : List Char := [' ', '.', ' ']

/-- The initialisation of a fresh `struct lcstate` performed by lifecycle.c
`new_lcstate` (lines 245-269), without the linking into the `lcobject`:
scan for the `" . "` separator; place the cursor after it and classify the
token found there; without a separator the cursor goes to end of text with
type NUL.  `tim_next` starts at 0 (dirty), `cnt_missed` at 0. -/
def mkLcstate (lcs : List Char) : LcState :=
  match strstrIdx lcs spcDotSpc with
  | none =>
      { txt_attr := lcs, tim_next := 0, ofs_next := lcs.length,
        typ_next := nulChar, cnt_missed := 0 }
  | some d =>
      { txt_attr := lcs, tim_next := 0, ofs_next := d + 3,
        typ_next := find_type (lcs.drop (d + 3)), cnt_missed := 0 }

/-! ### The lifecycleState grammar (lifecycle.h `LIFECYCLESTATE_RE`)

The grammar check `grammar_lcstate` runs the extended regular expression
`LIFECYCLESTATE_RE` of lifecycle.h.  Tokens are separated by single spaces
and none of the token alternatives can contain a space or be the bare dot,
so the regular expression is decided here by splitting on spaces and
classifying each token, following the structure of the `#define`s. -/

/-- Split a list on a separator character; `n` separators give `n+1` parts. -/
def splitSp (sep : Char) (s : List Char) : List (List Char) :=
  s.foldr
    (fun c acc =>
      if c = sep then [] :: acc
      else
        match acc with
        | [] => [[c]]
        | h :: t => (c :: h) :: t)
    [[]]

/-- Character class of `IDENTIFIER_RE`s leading run: `[a-zA-Z_-]`. -/
def isIdentLeadChar (c : Char) : Bool := c.isAlpha || c = '_' || c = '-'

/-- `IDENTIFIER_RE`: `([a-zA-Z_-]+[0-9]*)`, anchored to the whole token. -/
def grammar_ident (s : List Char) : Bool :=
  let k := (s.takeWhile isIdentLeadChar).length
  decide (1 ≤ k) && (s.drop k).all Char.isDigit

/-- `TIMESTAMP_RE`: `([0-9]+)`, anchored to the whole token. -/
def grammar_timestamp (s : List Char) : Bool :=
  decide (s ≠ []) && s.all Char.isDigit

/-- `VALUE_RE`: `([^ .]*)`, anchored to the whole token. -/
def grammar_value (s : List Char) : Bool :=
  s.all (fun c => c ≠ ' ' && c ≠ '.')

/-- Position of the separator sign inside an event token.  Identifiers can
contain none of the three separator signs, so the first occurrence is the
only candidate split point for all three token alternatives. -/
def sepIdx (s : List Char) : Nat :=
  s.findIdx (fun c => c = '@' || c = '?' || c = '=')

/-- `DONE_RE`: `EVENT@TIMESTAMP | LIFECYCLE?EVENT | VARIABLE=VALUE`. -/
def grammar_done_token (s : List Char) : Bool :=
  let i := sepIdx s
  if i < s.length then
    grammar_ident (s.take i) &&
      (let c := getC s i
       let rest := s.drop (i + 1)
       if c = '@' then grammar_timestamp rest
       else if c = '?' then grammar_ident rest
       else grammar_value rest)
  else false

/-- `NEXT_RE`: `EVENT@TIMESTAMP? | LIFECYCLE?EVENT`. -/
def grammar_next_token (s : List Char) : Bool :=
  let i := sepIdx s
  if i < s.length then
    grammar_ident (s.take i) &&
      (let c := getC s i
       let rest := s.drop (i + 1)
       if c = '@' then (rest.isEmpty || grammar_timestamp rest)
       else if c = '?' then grammar_ident rest
       else false)
  else false

/-- `TO_DO_RE`: `EVENT@TIMESTAMP? | LIFECYCLE?EVENT | VARIABLE=VALUE?`
(note `VALUE_RE` already matches the empty string). -/
def grammar_todo_token (s : List Char) : Bool :=
  let i := sepIdx s
  if i < s.length then
    grammar_ident (s.take i) &&
      (let c := getC s i
       let rest := s.drop (i + 1)
       if c = '@' then (rest.isEmpty || grammar_timestamp rest)
       else if c = '?' then grammar_ident rest
       else grammar_value rest)
  else false

/-- lifecycle.c `grammar_lcstate`: match the whole attribute value against
`LIFECYCLESTATE_RE`, i.e.
`LIFECYCLE (" " DONE)* " . " NEXT (" " TO_DO)* | LIFECYCLE (" " DONE)* " ."`. -/
def grammar_lcstate (s : List Char) : Bool :=
  match splitSp ' ' s with
  | [] => false
  | lc :: toks =>
    grammar_ident lc &&
      (let pre := toks.takeWhile (fun t => t != ['.'])
       let rest := toks.dropWhile (fun t => t != ['.'])
       pre.all grammar_done_token &&
         match rest with
         | [] => false
         | _ :: post =>
           match post with
           | [] => true
           | nx :: todos => grammar_next_token nx && todos.all grammar_todo_token)

/-! ### The distinguishedName grammar (lifecycle.h `DISTINGUISHEDNAME_RE`) -/

/-- `KEYSTRING_RE`: `([A-Za-z][A-Za-z0-9-]*)`. -/
def grammar_keystring (s : List Char) : Bool :=
  match s with
  | [] => false
  | c :: rest => c.isAlpha && rest.all (fun d => d.isAlpha || d.isDigit || d = '-')

/-- One arc of `OID_RE`: `[1-9][0-9]*`. -/
def grammar_oid_arc (s : List Char) : Bool :=
  match s with
  | [] => false
  | c :: rest => (c.isDigit && c ≠ '0') && rest.all Char.isDigit

/-- `OID_RE`: dot-separated nonzero-led decimal arcs. -/
def grammar_oid (s : List Char) : Bool :=
  (splitSp '.' s).all grammar_oid_arc

/-- `ATRTYPE_RE`: a key string or an OID. -/
def grammar_atrtype (s : List Char) : Bool :=
  grammar_keystring s || grammar_oid s

/-- `ATRVAL_RE`: `([^,+]*|["][^,+"]*["])`; the quoted alternative is a
subset of the unquoted one, so the union is exactly `[^,+]*`. -/
def grammar_atrval (s : List Char) : Bool :=
  s.all (fun c => c ≠ ',' && c ≠ '+')

/-- `ATTRTYPEVAL_RE`: `ATRTYPE = ATRVAL`; neither key strings nor OIDs can
contain an equals sign, so the first one is the split point. -/
def grammar_atv (s : List Char) : Bool :=
  let i := s.findIdx (fun c => c = '=')
  if i < s.length then grammar_atrtype (s.take i) && grammar_atrval (s.drop (i + 1))
  else false

/-- `RDN_RE`: plus-joined attribute type and value pairs. -/
def grammar_rdn (s : List Char) : Bool :=
  (splitSp '+' s).all grammar_atv

/-- lifecycle.c `grammar_dn`: match against `DISTINGUISHEDNAME_RE`, a
comma-separated sequence of RDNs. -/
def grammar_dn (s : List Char) : Bool :=
  (splitSp ',' s).all grammar_rdn

/-! ### DER parsing (lifecycle.c `parse_der`, lines 163-182)

`parse_der` receives a pointer to a DER item and yields a payload pointer
and length.  Here the buffer is a `List Nat` of byte values and the payload
pointer is returned as a byte offset from the start of the buffer.  The
translation follows the C line by line: `der++` skips the tag, so from then
on `der [0]` is the buffer byte at index 1 and `der [1]` the byte at
index 2; `der + 1` is offset 2 and `der + 2` is offset 3. -/

/-- Parse the pointer (as an offset from the buffer start) and length from a
DER header (lifecycle.c `parse_der`); `none` is the `false` return. -/
def parse_der (der : List Nat) : Option (Nat × Nat) :=
  let b := der.getD 1 0
  if b &&& 0x80 ≠ 0 then
    let lenlen := b &&& 0x7f
    if lenlen < 1 ∨ 2 < lenlen then none
    else
      let len0 := der.getD 1 0
      if lenlen = 2 then some (3, (len0 <<< 8) ||| der.getD 2 0)
      else some (2, len0)
  else some (2, b)

/-- Modelled from the spec: the repository contains no DER encoder (the DER
values come in from LDAP), so the round-trip property is stated against the
standard DER definite-length encoding described in the spec (section 6):
a tag byte, then either a single length byte below 0x80, or 0x81 and one
length byte, or 0x82 and a big-endian two-byte length, then the payload.
The tag 0x04 (OCTET STRING) is the one used by the repository's tests. -/
def encode_der (s : List Char) : List Nat :=
  let payload := s.map Char.toNat
  let n := payload.length
  if n ≤ 127 then 4 :: n :: payload
  else if n ≤ 255 then 4 :: 129 :: n :: payload
  else 4 :: 130 :: (n / 256) :: (n % 256) :: payload

/-! ### Timer functions (lifecycle.c, TIMER FUNCTIONS section) -/

/-- lifecycle.h `MAX_TIME_T` for 64-bit signed `time_t`, i.e. the maximum
signed time value `2^63 - 1` (the source expression `(~(time_t)0)>>1` read
as the intended all-ones-but-sign pattern). -/
def maxTimeT : Int := 9223372036854775807

/-- Conversion of an `unsigned long` value to 64-bit signed `time_t`
(two's complement wrap-around, as on the common LP64 platforms). -/
def toI64 (n : Nat) : Int :=
  if n < 9223372036854775808 then (n : Int) else (n : Int) - 18446744073709551616

/-- Conversion of a 64-bit signed value back to `unsigned long` (modular). -/
def toU64 (i : Int) : Nat := (i % 18446744073709551616).toNat

/-- C `strtoul` on a decimal digit run, with the standard saturation to
`ULONG_MAX` on overflow. -/
def strtoulVal (s : List Char) : Nat :=
  let v := (s.takeWhile Char.isDigit).foldl (fun a c => a * 10 + (c.toNat - 48)) 0
  if v ≤ 18446744073709551615 then v else 18446744073709551615

/-- Mark the firing time in an lcstate as dirty (lifecycle.c
`smudge_lcstate_firetime`, lines 405-413).  The second component is the
enclosing object's `tim_first`. -/
def smudge_lcstate_firetime (lcs : LcState) (tim_first : Int) : LcState × Int :=
  if lcs.tim_next ≠ 0 then
    ({ lcs with tim_next := 0 },
     if lcs.tim_next = tim_first then 0 else tim_first)
  else (lcs, tim_first)

/-- When the next event is timer type, test when it may fire (lifecycle.c
`update_lcstate_firetime`, lines 434-462).  `now` stands for `time (NULL)`.
Returns the `update` value together with the state carrying it in
`tim_next`. -/
def update_lcstate_firetime (now : Int) (lcs : LcState) : Int × LcState :=
  let upd :=
    if lcs.typ_next ≠ '@' then maxTimeT
    else
      let suffix := lcs.txt_attr.drop lcs.ofs_next
      let rel := strchrnulIdx suffix '@'
      if rel = suffix.length then maxTimeT
      else
        let tpos := lcs.ofs_next + rel + 1
        if ¬ (getC lcs.txt_attr tpos).isDigit then now
        else
          let stamp := strtoulVal (lcs.txt_attr.drop tpos)
          if stamp = 0 then now
          else if stamp ≠ toU64 (toI64 stamp) then maxTimeT
          else toI64 stamp
  (upd, { lcs with tim_next := upd })

/-! ### Event exchange (lifecycle.c `advance_lcstate_events`, lines 500-561)

The function is embedded twice: once with the C `assert` of line 510
modelled as an explicit failure outcome (the assert-enabled build), and once
with the assert skipped (an `NDEBUG` build), where the outer loop need not
terminate, so the embedding carries explicit fuel and returns `none` when
the fuel runs out. -/

/-- Result of the assert-enabled `advance_lcstate_events`: a normal return
value with the updated state and object `tim_first`, or a tripped assert. -/
inductive AdvResult where
  | ok : Bool → LcState → Int → AdvResult
  | assertFail : AdvResult
deriving DecidableEq, Repr

/-- The sibling search loop of `advance_lcstate_events` (lines 512-520):
walk the `lcs_first` chain; the comparison tests the leading identifier of
`lcs->txt_attr` (the advancing state itself) against the awaited name at
`src`, exactly as in the source. -/
def findOther (lcs_txt src : List Char) (srclen : Nat) : List LcState → Option LcState
  | [] => none
  | other :: rest =>
    if idlen lcs_txt = srclen ∧ lcs_txt.take srclen = src.take srclen then some other
    else findOther lcs_txt src srclen rest

/-- The past-token walk of `advance_lcstate_events` (lines 530-546): `trig`
scans `txt` from its first space, token by token, stopping before the cursor
position `nextPos`, and reports whether a past token's identifier matches
the awaited event `evt` of length `evtlen`.  The fuel only serves Lean
termination; `txt.length + 2` steps always suffice because `trig` advances
every round. -/
def pastWalkLoop (txt : List Char) (nextPos : Nat) (evt : List Char) (evtlen : Nat) :
    Nat → Nat → Bool
  | _, 0 => false
  | trig, fuel + 1 =>
    if getC txt trig = ' ' then
      let trig1 := trig + 1
      if nextPos ≤ trig1 then false
      else
        let trglen := idlen (txt.drop trig1)
        if trglen = evtlen ∧ (txt.drop trig1).take evtlen = evt.take evtlen then true
        else if getC txt trig1 ≠ '.' then
          pastWalkLoop txt nextPos evt evtlen
            (trig1 + strchrnulIdx (txt.drop trig1) ' ') fuel
        else pastWalkLoop txt nextPos evt evtlen trig1 fuel
    else false

/-- The cursor advance block of `advance_lcstate_events` (lines 548-556):
`next = strchrnul (next, ' '); if (*next == ' ') next++;` then store the new
offset and smudge the firing time.  Note that `typ_next` is not touched. -/
def advance_cursor (lcs : LcState) (tim_first : Int) : LcState × Int :=
  let nxt0 := lcs.ofs_next + strchrnulIdx (lcs.txt_attr.drop lcs.ofs_next) ' '
  let nxt1 := if getC lcs.txt_attr nxt0 = ' ' then nxt0 + 1 else nxt0
  smudge_lcstate_firetime { lcs with ofs_next := nxt1 } tim_first

/-- One round of the outer `while (didsth)` loop of `advance_lcstate_events`
with the line 510 assert modelled; `objStates` is the object's `lcs_first`
chain, `retval` the accumulated return value. -/
def advanceLoop (objStates : List LcState) :
    Nat → LcState → Int → Bool → AdvResult
  | 0, lcs, tim_first, retval => .ok retval lcs tim_first
  | fuel + 1, lcs, tim_first, retval =>
    if lcs.typ_next ≠ '?' then .ok false lcs tim_first
    else
      let src := lcs.txt_attr.drop lcs.ofs_next
      let srclen := idlen src
      if getC src srclen ≠ '@' then .assertFail
      else
        let didsth :=
          match findOther lcs.txt_attr src srclen objStates with
          | none => true
          | some _ =>
            let evt := src.drop (srclen + 1)
            let evtlen := idlen evt
            pastWalkLoop lcs.txt_attr lcs.ofs_next evt evtlen
              (strchrnulIdx lcs.txt_attr ' ') (lcs.txt_attr.length + 2)
        if didsth then
          let r := advance_cursor lcs tim_first
          advanceLoop objStates fuel r.1 r.2 true
        else .ok retval lcs tim_first

/-- Advance one or more await events in a given lcstate (lifecycle.c
`advance_lcstate_events`), assert-enabled build.  The internal fuel
`txt.length + 2` covers every possible run of the loop, because each
consuming round moves the cursor strictly forward and the round at the end
of text trips the assert. -/
def advance_lcstate_events (objStates : List LcState) (lcs : LcState)
    (tim_first : Int) : AdvResult :=
  advanceLoop objStates (lcs.txt_attr.length + 2) lcs tim_first false

/-- One round of the outer loop with the assert skipped (`NDEBUG` build);
`none` reports fuel exhaustion, i.e. the loop still running. -/
def advanceLoopND (objStates : List LcState) :
    Nat → LcState → Int → Bool → Option (Bool × LcState × Int)
  | 0, _, _, _ => none
  | fuel + 1, lcs, tim_first, retval =>
    if lcs.typ_next ≠ '?' then some (false, lcs, tim_first)
    else
      let src := lcs.txt_attr.drop lcs.ofs_next
      let srclen := idlen src
      let didsth :=
        match findOther lcs.txt_attr src srclen objStates with
        | none => true
        | some _ =>
          let evt := src.drop (srclen + 1)
          let evtlen := idlen evt
          pastWalkLoop lcs.txt_attr lcs.ofs_next evt evtlen
            (strchrnulIdx lcs.txt_attr ' ') (lcs.txt_attr.length + 2)
      if didsth then
        let r := advance_cursor lcs tim_first
        advanceLoopND objStates fuel r.1 r.2 true
      else some (retval, lcs, tim_first)

/-- `advance_lcstate_events` in the `NDEBUG` build, with explicit fuel for
the outer loop. -/
def advance_lcstate_eventsND (objStates : List LcState) (fuel : Nat)
    (lcs : LcState) (tim_first : Int) : Option (Bool × LcState × Int) :=
  advanceLoopND objStates fuel lcs tim_first false

/-! ### Concrete inputs for the event-exchange and parsing claims -/

/-- A grammar-valid lifecycleState whose cursor token is the await `a?b`,
followed by the timer token `c@5`. -/
def txtAwaitTimer : List Char := "x . a?b c@5".toList

/-- A grammar-valid lifecycleState whose only future token is the await
`a?b`. -/
def txtAwaitOnly : List Char := "x . a?b".toList

/-- A lifecycleState of life cycle `a` awaiting event `e` of life cycle `b`. -/
def txtAwaitB : List Char := "a . b?e".toList

/-- A lifecycleState of life cycle `b` that has no past token at all, so in
particular no past event `e`. -/
def txtCycleB : List Char := "b . z@9".toList

/-- A lifecycleState whose cursor token carries the decimal timestamp
`18446744073709551615`, i.e. `ULONG_MAX = 2^64 - 1`, far beyond the signed
64-bit time range. -/
def txtHugeStamp : List Char := "x . a@18446744073709551615".toList

/-- C1: the sibling search of `advance_lcstate_events`.  The object holds
the committed states `"a . b?e"` (the advancing state, awaiting event `e`
of life cycle `b`) and `"b . z@9"`.  The claim says the search selects a
committed state whose leading identifier equals the awaited name `b` — such
a state is present (second conjunct) — and that the await is then satisfied
only by a past `e` of that sibling, which has none, so the call should
consume nothing and return false.  The code instead compares the advancing
state's own leading identifier `a` against `b`, so `findOther` comes back
empty (first conjunct) and the await is treated as trivially satisfied;
moreover the assert-enabled build trips `assert (src [srclen] == '@')`
before ever searching (third conjunct), and the `NDEBUG` build consumes the
await, then runs off the end of the text and never returns (fourth
conjunct: still looping after 50 rounds of a 2-token state). -/
theorem c1_sibling_search_ignores_siblings :
    findOther txtAwaitB (txtAwaitB.drop 4) 1 [mkLcstate txtAwaitB, mkLcstate txtCycleB]
        = none ∧
    (idlen txtCycleB = 1 ∧ txtCycleB.take 1 = (txtAwaitB.drop 4).take 1) ∧
    advance_lcstate_events [mkLcstate txtAwaitB, mkLcstate txtCycleB]
        (mkLcstate txtAwaitB) 0 = .assertFail ∧
    advance_lcstate_eventsND [mkLcstate txtAwaitB, mkLcstate txtCycleB] 50
        (mkLcstate txtAwaitB) 0 = none := by
  decide

/-- C2: a single call of `advance_lcstate_events` on the state
`"x . a?b c@5"` (object containing only that state, so the await is
satisfied by the absent-sibling rule).  The claim says the call consumes the
satisfied await run and returns true once the cursor reaches the timer
token `c@5`.  Instead the assert-enabled build trips
`assert (src [srclen] == '@')` immediately (the character after the await's
identifier is a question mark), and the `NDEBUG` build — because `typ_next`
is never reclassified — also consumes the timer token as if it were an
await and then loops forever at the end of the text (still running after 50
rounds; one consuming round would already have sufficed for the claimed
result). -/
theorem c2_single_call_never_returns_true :
    advance_lcstate_events [mkLcstate txtAwaitTimer] (mkLcstate txtAwaitTimer) 0
        = .assertFail ∧
    advance_lcstate_eventsND [mkLcstate txtAwaitTimer] 50 (mkLcstate txtAwaitTimer) 0
        = none := by
  decide

/-- C3: advancing the cursor of `"x . a?b c@5"` past the await token `a?b`
(state built with `tim_next = 5` and object `tim_first = 5`).  The offset
moves to 8, the first character of the following token `c@5` (first
conjunct), whose classification is TIMER (second conjunct); `tim_next` is
marked dirty and the object's `tim_first`, which equalled the prior
`tim_next`, is marked dirty too (fourth and fifth conjuncts).  But
`typ_next` stays the stale `'?'` (third conjunct): the advance block of
lines 548-556 never reclassifies it, against the claim. -/
theorem c3_advance_does_not_reclassify :
    (advance_cursor { mkLcstate txtAwaitTimer with tim_next := 5 } 5).1.ofs_next = 8 ∧
    find_type (txtAwaitTimer.drop 8) = '@' ∧
    (advance_cursor { mkLcstate txtAwaitTimer with tim_next := 5 } 5).1.typ_next = '?' ∧
    (advance_cursor { mkLcstate txtAwaitTimer with tim_next := 5 } 5).1.tim_next = 0 ∧
    (advance_cursor { mkLcstate txtAwaitTimer with tim_next := 5 } 5).2 = 0 := by
  decide

/-- C4: `parse_der` on the DER encoding of a 128-character string.  The
encoding is `04 81 80` followed by the payload, whose first character sits
at offset 3 with length 128 (second conjunct).  The code returns offset 2 —
the length byte — and length `0x81 = 129`, because in the long form it
reads the length-of-length byte itself as length data; so the round-trip of
the claim fails (third conjunct). -/
theorem c4_parse_der_long_form_broken :
    parse_der (encode_der (List.replicate 128 'a')) = some (2, 129) ∧
    ((encode_der (List.replicate 128 'a')).drop 3).take 128
        = (List.replicate 128 'a').map Char.toNat ∧
    ((2 : Nat), (129 : Nat)) ≠ ((3 : Nat), (128 : Nat)) := by
  decide

/-- C8: `update_lcstate_firetime` on a cursor timer token whose decimal
value `2^64 - 1` lies outside the signed 64-bit time range (third
conjunct).  The claim says such a value is rejected with the fire time left
at MAX.  But `stamp != (unsigned long) (time_t) stamp` compares equal when
`unsigned long` and `time_t` are both 64 bits wide, so the value passes the
range check and the stored fire time is the wrapped-around `-1` (first
conjunct), which is not `MAX_TIME_T` (second conjunct).  The result does
not depend on the current time. -/
theorem c8_out_of_range_stamp_wraps_to_minus_one :
    ∀ now : Int,
      (update_lcstate_firetime now (mkLcstate txtHugeStamp)).1 = -1 ∧
      (-1 : Int) ≠ maxTimeT ∧
      maxTimeT < (18446744073709551615 : Int) := by
  intro now
  exact ⟨rfl, by decide, by decide⟩

/-- C10: the state built by `new_lcstate` from the grammar-valid
lifecycleState `"x . a?b"` has `typ_next = '?'` (second conjunct), and the
character following the identifier at its cursor is the question mark, not
the commercial-at (third conjunct), so `assert (src [srclen] == '@')` in
`advance_lcstate_events` fails on it (fourth conjunct) — the assertion is
not valid, against the claim. -/
theorem c10_await_assert_trips_on_valid_state :
    grammar_lcstate txtAwaitOnly = true ∧
    (mkLcstate txtAwaitOnly).typ_next = '?' ∧
    getC (txtAwaitOnly.drop (mkLcstate txtAwaitOnly).ofs_next)
        (idlen (txtAwaitOnly.drop (mkLcstate txtAwaitOnly).ofs_next)) = '?' ∧
    advance_lcstate_events [mkLcstate txtAwaitOnly] (mkLcstate txtAwaitOnly) 0
        = .assertFail := by
  decide

/-! ### Allocation and the lcobject structure (lifecycle.h `struct lcobject`)

The three `struct lcstate *` fields of an `lcobject` point into one singly
linked chain, ordered toadd-prefix, committed region, todel-tail (see the
lifecycle.h commentary).  The chain is modelled as the `List LcState`
reachable from the outermost live pointer, and the three pointers as `Nat`
offsets of their target nodes in that list, with a NULL pointer encoded as
the offset `chain.length` (no node lives there, and the encoding is stable
under prepending, which shifts every stored offset by one).  Whenever a
transaction is active, `txn_open` has made `lcs_toadd` the chain head
(offset 0), since outside transactions the head pointer is `lcs_first`. -/

/-- One lifecycleObject (lifecycle.h `struct lcobject`), minus the queue
pointer `lco_next` and the hash handle, which are represented by the list
resp. hash structure in `Lcenv`. -/
structure LcObject where
  txt_dn : List Char
  chain : List LcState
  lcs_toadd : Nat
  lcs_first : Nat
  lcs_todel : Nat
  tim_first : Int
deriving DecidableEq, Repr

/-- The committed region of an object: the states between the `lcs_first`
pointer and the `lcs_todel` pointer (to the chain's end when that is NULL). -/
def committed_states (o : LcObject) : List LcState :=
  (o.chain.take o.lcs_todel).drop o.lcs_first

/-- lifecycle.c `new_lcobject` (lines 315-327): a fresh object for the
given DN with no states (all three pointers NULL, i.e. offset 0 in the
empty chain) and `tim_first = MAX_TIME_T`. -/
def new_lcobject (dn : List Char) : LcObject :=
  { txt_dn := dn, chain := [], lcs_toadd := 0, lcs_first := 0, lcs_todel := 0,
    tim_first := maxTimeT }

/-- lifecycle.c `new_lcstate` (lines 245-269), the linking part: the new
state is pushed in front of `lcs_toadd`, which is the chain head during an
active transaction; the stored offsets of the other pointers shift by one
(this also preserves offset-encoded NULLs); `lco->tim_first = 0`. -/
def new_lcstate (lco : LcObject) (lcs : List Char) : LcObject :=
  { lco with
    chain := mkLcstate lcs :: lco.chain,
    lcs_toadd := 0,
    lcs_first := lco.lcs_first + 1,
    lcs_todel := lco.lcs_todel + 1,
    tim_first := 0 }

/-- lifecycle.c `find_lcstate_ptr` (lines 287-297) applied as in
`_int_pb_addnotdel`: search the region from the `lcs_toadd` pointer up to
the `lcs_todel` end marker for a state with exactly the given text
(`strmemcmp == 0`), returning the offset of the found node. -/
def find_lcstate_idx (lco : LcObject) (mem : List Char) : Option Nat :=
  (((lco.chain.take lco.lcs_todel).drop lco.lcs_toadd).findIdx?
      (fun st => strmemcmpZero st.txt_attr mem)).map (· + lco.lcs_toadd)

/-! ### The environment and the transaction layer

`struct lcenv` is modelled for the single-environment transaction flow: the
`env_txncycle` self-ring of a lone transaction becomes the Boolean
`active`, `LCE_ABORTED` becomes `aborted`, the `lco_first` queue becomes
`lco_list` and the UT_hash table keyed on `txt_dn` becomes the list of its
keys, `lco_dnhash` (`HASH_ADD` prepends a key, `HASH_DELETE` erases one).
The driver table, mutex, condition and service thread fields play no role
in the claims under study and are omitted.  C `assert`s are modelled by
returning `none`. -/

/-- The transactional view of lifecycle.h `struct lcenv`. -/
structure Lcenv where
  lco_list : List LcObject
  lco_dnhash : List (List Char)
  aborted : Bool
  active : Bool
deriving DecidableEq, Repr

/-- lifecycle.c `txn_isactive`: `env_txncycle != NULL`. -/
def txn_isactive (e : Lcenv) : Bool := e.active

/-- lifecycle.c `txn_isaborted`: the `LCE_ABORTED` flag. -/
def txn_isaborted (e : Lcenv) : Bool := e.aborted

/-- lifecycle.c `txn_isaborted_clr` (lines 1014-1017): assert no active
transaction, then clear the flag. -/
def txn_isaborted_clr (e : Lcenv) : Option Lcenv :=
  if txn_isactive e then none else some { e with aborted := false }

/-- lifecycle.c `find_lcobject` (lines 352-357): hash lookup by DN. -/
def find_lcobject (e : Lcenv) (mem : List Char) : Option LcObject :=
  if e.lco_dnhash.contains mem then
    e.lco_list.find? (fun o => o.txt_dn == mem)
  else none

/-- lifecycle.c `txn_open` (lines 1050-1067): assert not active and not
aborted; create the self transaction cycle; for every object assert
`lcs_toadd == NULL && lcs_todel == NULL` and set `lcs_toadd = lcs_first`. -/
def txn_open (e : Lcenv) : Option Lcenv :=
  if txn_isactive e then none
  else if txn_isaborted e then none
  else if e.lco_list.all
      (fun o => o.lcs_toadd == o.chain.length && o.lcs_todel == o.chain.length) then
    some { e with
           active := true,
           lco_list := e.lco_list.map (fun o => { o with lcs_toadd := o.lcs_first }) }
  else none

/-- lifecycle.c `txn_break` (lines 1077-1109) on a self-ring: assert an
active transaction; in every object free the states between the
`lcs_toadd` chain head and the `lcs_first` pointer and NULL both staging
pointers; clear the cycle and raise the aborted flag. -/
def txn_break (e : Lcenv) : Option Lcenv :=
  if ¬ txn_isactive e then none
  else
    some { e with
           active := false,
           aborted := true,
           lco_list := e.lco_list.map (fun o =>
             { o with
               chain := o.chain.drop o.lcs_first,
               lcs_first := 0,
               lcs_toadd := (o.chain.drop o.lcs_first).length,
               lcs_todel := (o.chain.drop o.lcs_first).length }) }

/-- lifecycle.c `txn_emptydata` (lines 1168-1176): assert an active
transaction; in every object `lcs_todel = lcs_first = lcs_toadd`. -/
def txn_emptydata (e : Lcenv) : Option Lcenv :=
  if ¬ txn_isactive e then none
  else
    some { e with
           lco_list := e.lco_list.map (fun o =>
             { o with lcs_todel := o.lcs_toadd, lcs_first := o.lcs_toadd }) }

/-- The per-object commit of `txn_done` (lines 1127-1141): walk the chain
from the `lcs_toadd` head until the `lcs_todel` pointer and cut there (the
todel tail is freed); `lcs_first = lcs_toadd`, both staging pointers
NULLed. -/
def commit_lcobject (o : LcObject) : LcObject :=
  let kept := o.chain.take o.lcs_todel
  { o with
    chain := kept,
    lcs_first := 0,
    lcs_toadd := kept.length,
    lcs_todel := kept.length }

/-- The object-list walk of `txn_done` (lines 1124-1152): commit each
object; an object whose committed set came out empty is unlinked from the
`lco_first` list, `HASH_DELETE`d from the DN hash, and freed. -/
def txn_done_objs : List LcObject → List (List Char) → List LcObject × List (List Char)
  | [], h => ([], h)
  | o :: rest, h =>
    let oc := commit_lcobject o
    if oc.chain.isEmpty then txn_done_objs rest (h.erase o.txt_dn)
    else
      let p := txn_done_objs rest h
      (oc :: p.1, p.2)

/-- lifecycle.c `txn_done` (lines 1116-1163) on a self-ring: assert an
active transaction, commit all objects, clear the cycle.  (The condition
signal to the service thread has no data effect.) -/
def txn_done (e : Lcenv) : Option Lcenv :=
  if ¬ txn_isactive e then none
  else
    let p := txn_done_objs e.lco_list e.lco_dnhash
    some { e with active := false, lco_list := p.1, lco_dnhash := p.2 }

/-! ### The Pulley backend entry points (lifecycle.c, PULLEY BACKEND) -/

/-- Helper for the addition path of `_int_pb_addnotdel`: run `new_lcstate`
on the object carrying the given DN (the C code holds a pointer to that
object; DNs are unique keys in the hash). -/
def add_state_to_dn : List LcObject → List Char → List Char → List LcObject
  | [], _, _ => []
  | o :: rest, dn, lcs =>
    if o.txt_dn == dn then new_lcstate o lcs :: rest
    else o :: add_state_to_dn rest dn lcs

/-- Helper for the deletion path of `_int_pb_addnotdel` (lines 1381-1400):
cut the found state (offset `p`, in the region before `lcs_todel`) out of
the chain and splice it back in immediately before the `lcs_todel` pointer,
which then moves onto it.  In offsets: the node is erased at `p` and
reinserted at `lcs_todel - 1`; `lcs_first` keeps its target (the C code
re-points it at the unlinked node's successor when it pointed at the node,
and at the spliced node when it pointed at the todel position). -/
def del_state_at (o : LcObject) (p : Nat) : LcObject :=
  let s := o.chain.getD p (mkLcstate [])
  let c1 := o.chain.eraseIdx p
  let d1 := o.lcs_todel - 1
  { o with
    chain := c1.insertIdx d1 s,
    lcs_first := if o.lcs_first ≤ p then o.lcs_first else o.lcs_first - 1,
    lcs_todel := d1 }

/-- Replace the object with the given DN in the list (pointer update). -/
def replace_lcobject : List LcObject → List Char → LcObject → List LcObject
  | [], _, _ => []
  | o :: rest, dn, o2 =>
    if o.txt_dn == dn then o2 :: rest
    else o :: replace_lcobject rest dn o2

/-- lifecycle.c `_int_pb_addnotdel` (lines 1310-1408): the shared body of
`pulleyback_add` and `pulleyback_del`.  Returns the C return value paired
with the resulting environment; `none` models a tripped assert inside the
transaction primitives (never reached from well-formed states). -/
def int_pb_addnotdel (add_not_del : Bool) (e : Lcenv) (derDn derLcs : List Nat) :
    Option (Int × Lcenv) :=
  if txn_isaborted e then some (0, e)
  else
    (if txn_isactive e then some e else txn_open e).bind fun e1 =>
    match parse_der derDn, parse_der derLcs with
    | some pd, some pl =>
      let dnBytes := (derDn.drop pd.1).take pd.2
      let lcsBytes := (derLcs.drop pl.1).take pl.2
      let dnstr := dnBytes.map Char.ofNat
      let lcsstr := lcsBytes.map Char.ofNat
      let ok := dnBytes.all (fun b => b ≠ 0) && lcsBytes.all (fun b => b ≠ 0) &&
        grammar_dn dnstr && grammar_lcstate lcsstr
      if ¬ ok then (txn_break e1).map (fun e2 => (0, e2))
      else
        let lco? := find_lcobject e1 dnstr
        let plcs? := lco?.bind (fun o => find_lcstate_idx o lcsstr)
        if add_not_del then
          let e2 :=
            match lco? with
            | some _ => e1
            | none =>
              { e1 with
                lco_list := new_lcobject dnstr :: e1.lco_list,
                lco_dnhash := dnstr :: e1.lco_dnhash }
          if plcs?.isSome then (txn_break e2).map (fun e3 => (0, e3))
          else some (1, { e2 with lco_list := add_state_to_dn e2.lco_list dnstr lcsstr })
        else
          match lco?, plcs? with
          | some o, some p =>
            some (1, { e1 with lco_list := replace_lcobject e1.lco_list dnstr (del_state_at o p) })
          | _, _ => (txn_break e1).map (fun e2 => (0, e2))
    | _, _ => (txn_break e1).map (fun e2 => (0, e2))

/-- lifecycle.c `pulleyback_add`. -/
def pulleyback_add (e : Lcenv) (derDn derLcs : List Nat) : Option (Int × Lcenv) :=
  int_pb_addnotdel true e derDn derLcs

/-- lifecycle.c `pulleyback_del`. -/
def pulleyback_del (e : Lcenv) (derDn derLcs : List Nat) : Option (Int × Lcenv) :=
  int_pb_addnotdel false e derDn derLcs

/-- lifecycle.c `pulleyback_reset` (lines 1443-1450): fail without an
active transaction, otherwise `txn_emptydata` and success. -/
def pulleyback_reset (e : Lcenv) : Option (Int × Lcenv) :=
  if ¬ txn_isactive e then some (0, e)
  else (txn_emptydata e).map (fun e1 => (1, e1))

/-- lifecycle.c `pulleyback_prepare` (lines 1463-1467): only reads
`txn_isaborted`. -/
def pulleyback_prepare (e : Lcenv) : Int :=
  if txn_isaborted e then 0 else 1

/-- lifecycle.c `pulleyback_commit` (lines 1473-1487). -/
def pulleyback_commit (e : Lcenv) : Option (Int × Lcenv) :=
  if txn_isaborted e then (txn_isaborted_clr e).map (fun e1 => (0, e1))
  else if txn_isactive e then (txn_done e).map (fun e1 => (1, e1))
  else some (1, e)

/-! ### Claims about the transaction layer -/

/-- The DER encoding of the distinguishedName `"dc=a"` (tag, length 4,
payload). -/
def derDn1 : List Nat := [4, 4, 100, 99, 61, 97]

/-- The DER encoding of the distinguishedName `"dc=b"`. -/
def derDn2 : List Nat := [4, 4, 100, 99, 61, 98]

/-- The DER encoding of the lifecycleState `"x . a@1"`. -/
def derLcs1 : List Nat := [4, 7, 120, 32, 46, 32, 97, 64, 49]

/-- The DER encoding of the lifecycleState `"y . b@2"`. -/
def derLcs2 : List Nat := [4, 7, 121, 32, 46, 32, 98, 64, 50]

/-- A freshly opened environment with no objects. -/
def envFresh : Lcenv :=
  { lco_list := [], lco_dnhash := [], aborted := false, active := false }

/-- The C5 scenario run: from an empty environment, build the committed
state `{dn1 -> {lcs1}}` by `add (dn1, lcs1); commit`, then perform
`add (dn2, lcs2); reset; commit`, collecting all five return codes and the
final environment. -/
def c5run : Option (Int × Int × Int × Int × Int × Lcenv) :=
  (pulleyback_add envFresh derDn1 derLcs1).bind (fun p1 =>
  (pulleyback_commit p1.2).bind (fun p2 =>
  (pulleyback_add p2.2 derDn2 derLcs2).bind (fun p3 =>
  (pulleyback_reset p3.2).bind (fun p4 =>
  (pulleyback_commit p4.2).map (fun p5 =>
    (p1.1, p2.1, p3.1, p4.1, p5.1, p5.2))))))

/-- C5: starting from the committed state `{dn1 -> {lcs1}}` (built by the
first `add`/`commit` pair, both returning 1), the sequence
`add (dn2, lcs2) -> 1`, `reset -> 1`, `commit -> 1` leaves the environment
with no objects at all: both the pre-existing committed state of `dn1` and
the addition of `dn2` staged before the reset are cleared, from the object
list and the DN hash alike. -/
theorem c5_reset_then_commit_clears_everything :
    c5run = some (1, 1, 1, 1, 1,
      { lco_list := [], lco_dnhash := [], aborted := false, active := false }) := by
  decide

/-- Object-list walk of `txn_done`, fully characterised: when the DN hash
holds exactly the object list's DNs (prefixed by `pre`, which the walk does
not disturb) and the DNs are distinct keys, then after the walk every
remaining object has a nonempty committed state set, and the hash holds
exactly the remaining objects' DNs. -/
theorem txn_done_objs_spec :
    ∀ (objs : List LcObject) (pre h : List (List Char)),
      h = pre ++ objs.map LcObject.txt_dn →
      (objs.map LcObject.txt_dn).Nodup →
      (∀ s ∈ pre, s ∉ objs.map LcObject.txt_dn) →
      (∀ o ∈ (txn_done_objs objs h).1, committed_states o ≠ []) ∧
      (txn_done_objs objs h).2 = pre ++ (txn_done_objs objs h).1.map LcObject.txt_dn := by
  intro objs
  induction objs with
  | nil =>
    intro pre h hh _ _
    simp only [txn_done_objs, List.map_nil, List.append_nil] at hh ⊢
    exact ⟨by simp, by simpa using hh⟩
  | cons o rest ih =>
    intro pre h hh hnd hdisj
    simp only [List.map_cons, List.nodup_cons] at hnd
    by_cases hemp : (commit_lcobject o).chain.isEmpty
    · have hstep : txn_done_objs (o :: rest) h = txn_done_objs rest (h.erase o.txt_dn) := by
        simp [txn_done_objs, hemp]
      have hdo : o.txt_dn ∉ pre := fun hmem => hdisj _ hmem (by simp)
      have herase : h.erase o.txt_dn = pre ++ rest.map LcObject.txt_dn := by
        rw [hh, List.map_cons, List.erase_append_right _ hdo, List.erase_cons_head]
      rw [hstep]
      exact ih pre _ herase hnd.2 (fun s hs hm => hdisj s hs (by simp [hm]))
    · have hstep : txn_done_objs (o :: rest) h =
          (commit_lcobject o :: (txn_done_objs rest h).1, (txn_done_objs rest h).2) := by
        simp [txn_done_objs, hemp]
      have hh2 : h = (pre ++ [o.txt_dn]) ++ rest.map LcObject.txt_dn := by
        rw [hh, List.map_cons]
        simp
      have hdisj2 : ∀ s ∈ pre ++ [o.txt_dn], s ∉ rest.map LcObject.txt_dn := by
        intro s hs
        rcases List.mem_append.mp hs with h1 | h2
        · exact fun hm => hdisj s h1 (by simp [hm])
        · simp only [List.mem_singleton] at h2
          subst h2
          exact hnd.1
      obtain ⟨ha, hb⟩ := ih (pre ++ [o.txt_dn]) h hh2 hnd.2 hdisj2
      constructor
      · intro o2 ho2
        rw [hstep] at ho2
        simp only [List.mem_cons] at ho2
        rcases ho2 with rfl | hmem
        · have hcs : committed_states (commit_lcobject o) = (commit_lcobject o).chain := by
            simp [committed_states, commit_lcobject]
          rw [hcs]
          intro hnil
          rw [hnil] at hemp
          simp at hemp
        · exact ha o2 hmem
      · rw [hstep]
        simp only []
        rw [hb]
        have hdn : (commit_lcobject o).txt_dn = o.txt_dn := rfl
        simp [hdn, List.map_cons]

/-- C9: after every successful commit (`txn_done` on an active environment
whose DN hash indexes its object list with distinct keys), no object with
an empty committed state set remains: every object still in the
environment has a nonempty committed set, and the DN hash holds exactly
the DNs of the remaining objects (the removed objects' DNs having been
deleted from it). -/
theorem c9_commit_removes_empty_objects (e e2 : Lcenv)
    (hact : txn_isactive e = true)
    (hsync : e.lco_dnhash = e.lco_list.map LcObject.txt_dn)
    (hnd : (e.lco_list.map LcObject.txt_dn).Nodup)
    (hdone : txn_done e = some e2) :
    (∀ o ∈ e2.lco_list, committed_states o ≠ []) ∧
    e2.lco_dnhash = e2.lco_list.map LcObject.txt_dn := by
  unfold txn_done at hdone
  rw [hact] at hdone
  simp only [Bool.not_true, reduceIte] at hdone
  obtain ⟨ha, hb⟩ :=
    txn_done_objs_spec e.lco_list [] e.lco_dnhash (by simpa using hsync) hnd (by simp)
  cases hdone
  exact ⟨ha, by simpa using hb⟩

/-- A committed single-state object used to witness the commit claims. -/
def objWitness : LcObject :=
  { txt_dn := ['d'], chain := [mkLcstate ("x . a@1".toList)], lcs_toadd := 0,
    lcs_first := 0, lcs_todel := 1, tim_first := 0 }

/-- An active environment holding `objWitness`. -/
def envWitness : Lcenv :=
  { lco_list := [objWitness], lco_dnhash := [['d']], aborted := false, active := true }

/-- The environment `txn_done` produces from `envWitness`. -/
def envWitnessDone : Lcenv :=
  { lco_list := [{ objWitness with lcs_toadd := 1, lcs_todel := 1 }],
    lco_dnhash := [['d']], aborted := false, active := false }

/-- Witness for C9: the theorem applied to the concrete commit of
`envWitness`. -/
theorem c9_commit_removes_empty_objects_witness :
    (∀ o ∈ envWitnessDone.lco_list, committed_states o ≠ []) ∧
    envWitnessDone.lco_dnhash = envWitnessDone.lco_list.map LcObject.txt_dn :=
  c9_commit_removes_empty_objects envWitness envWitnessDone (by decide) (by decide)
    (by decide) (by decide)

/-- C7: for every environment, `pulleyback_prepare` returns 1 exactly when
the aborted flag is clear (and, being a pure read of the flag, mutates
nothing); `pulleyback_commit` on an aborted environment (necessarily
outside an active transaction, as `txn_isaborted_clr` asserts) clears the
flag, returns 0, and changes nothing else — in particular no object state;
and `pulleyback_commit` on an environment neither aborted nor active
returns 1 and changes nothing. -/
theorem c7_prepare_and_commit_edges (e : Lcenv) :
    (pulleyback_prepare e = 1 ↔ e.aborted = false) ∧
    (e.aborted = true → e.active = false →
      pulleyback_commit e = some (0, { e with aborted := false })) ∧
    (e.aborted = false → e.active = false →
      pulleyback_commit e = some (1, e)) := by
  refine ⟨?_, ?_, ?_⟩
  · unfold pulleyback_prepare txn_isaborted
    cases h : e.aborted <;> simp
  · intro ha hc
    unfold pulleyback_commit txn_isaborted txn_isaborted_clr txn_isactive
    simp [ha, hc]
  · intro ha hc
    unfold pulleyback_commit txn_isaborted txn_isactive
    simp [ha, hc]

/-- An aborted, inactive environment used to witness C7. -/
def envAbortedW : Lcenv :=
  { lco_list := [], lco_dnhash := [], aborted := true, active := false }

/-- Witness for C7: the theorem applied to the concrete aborted
environment. -/
theorem c7_prepare_and_commit_edges_witness :
    (pulleyback_prepare envAbortedW = 1 ↔ envAbortedW.aborted = false) ∧
    pulleyback_commit envAbortedW = some (0, { envAbortedW with aborted := false }) :=
  ⟨(c7_prepare_and_commit_edges envAbortedW).1,
   (c7_prepare_and_commit_edges envAbortedW).2.1 rfl rfl⟩

/-! ### Collaborating transactions (lifecycle.c `pulleyback_collaborate`)

`pulleyback_collaborate` works on the `env_txncycle` rings that link the
environments of a collaborative transaction.  Those rings are modelled over
an arbitrary finite type of environments: `nxt` is the ring successor
function (the `env_txncycle` pointers, a permutation of the environment
set), `inTxn e` says whether `e`'s pointer is non-NULL (i.e. `e` sits in a
ring), and `aborted e` is `e`'s `LCE_ABORTED` flag.  The object data under
each environment plays no role in the ring surgery and is omitted here
(the single-environment `Lcenv` model above covers it). -/

/-- The transaction-ring view of a set of environments. -/
structure TxnWorld (α : Type) where
  nxt : Equiv.Perm α
  inTxn : α → Bool
  aborted : α → Bool

/-- The pointer rewiring of `pulleyback_collaborate` (lines 1529-1536):
with `one1 = nxt l1`, `one2 = nxt l2`, `two1 = nxt one1`, `two2 = nxt one2`
it sets `nxt one1 := two2` and `nxt one2 := two1`, leaving everything else
in place. -/
def spliceFun {α : Type} [DecidableEq α] (nxt : α → α) (l1 l2 : α) : α → α := fun x =>
  if x = nxt l1 then nxt (nxt l2)
  else if x = nxt l2 then nxt (nxt l1)
  else nxt x

/-- The splice is the permutation `f * swap (f l1) (f l2)`; in particular
it keeps the successor function bijective. -/
theorem spliceFun_eq_mul_swap {α : Type} [DecidableEq α] (f : Equiv.Perm α) (l1 l2 : α) :
    spliceFun f l1 l2 = ⇑(f * Equiv.swap (f l1) (f l2)) := by
  funext x
  simp only [spliceFun, Equiv.Perm.mul_apply]
  by_cases h1 : x = f l1
  · simp [h1, Equiv.swap_apply_left]
  · by_cases h2 : x = f l2
    · simp [h1, h2, Equiv.swap_apply_right]
    · simp [h1, h2, Equiv.swap_apply_of_ne_of_ne h1 h2]

/-- Ring merge: when `e1` and `e2` lie on distinct rings of `f`, the
spliced successor function has a single ring through `e1` consisting of
exactly the members of the two original rings (each environment of a
permutation ring occurring exactly once). -/
theorem splice_merges_rings {α : Type} [DecidableEq α] [Fintype α]
    (f : Equiv.Perm α) (e1 e2 : α) (hd : ¬ f.SameCycle e1 e2) :
    ∀ x, (f * Equiv.swap (f e1) (f e2)).SameCycle e1 x ↔
      (f.SameCycle e1 x ∨ f.SameCycle e2 x) := by
  set a := f e1 with ha_def
  set b := f e2 with hb_def
  set g := f * Equiv.swap a b with hg_def
  have hA : f.SameCycle e1 a := ⟨1, by simp [ha_def]⟩
  have hB : f.SameCycle e2 b := ⟨1, by simp [hb_def]⟩
  have he1b : e1 ≠ b := by
    intro h
    exact hd (h ▸ hB.symm)
  have hga : g a = f b := by
    simp [hg_def, Equiv.Perm.mul_apply, Equiv.swap_apply_left]
  have hgb : g b = f a := by
    simp [hg_def, Equiv.Perm.mul_apply, Equiv.swap_apply_right]
  have hgo : ∀ x, x ≠ a → x ≠ b → g x = f x := by
    intro x h1 h2
    simp [hg_def, Equiv.Perm.mul_apply, Equiv.swap_apply_of_ne_of_ne h1 h2]
  have anchor_a : g.SameCycle e1 a := by
    by_cases h : e1 = a
    · exact h ▸ Equiv.Perm.SameCycle.refl g e1
    · have hge1 : g e1 = a := by rw [hgo e1 h he1b, ha_def]
      exact hge1 ▸ Equiv.Perm.SameCycle.apply_right (Equiv.Perm.SameCycle.refl g e1)
  have anchor_fb : g.SameCycle e1 (f b) := by
    have h1 : g.SameCycle e1 (g a) := anchor_a.apply_right
    rwa [hga] at h1
  have mergeW : ∀ (k : ℕ) (y : α), g.SameCycle e1 y → ¬ f.SameCycle e1 y →
      (f ^ k) y = b → g.SameCycle e1 b := by
    intro k
    induction k with
    | zero =>
      intro y h1 _ h3
      have hyb : y = b := by simpa using h3
      exact hyb ▸ h1
    | succ k ihk =>
      intro y h1 h2 h3
      by_cases hyb : y = b
      · exact hyb ▸ h1
      · have hya : y ≠ a := fun h => h2 (h ▸ hA)
        have h1g : g.SameCycle e1 (f y) := by
          have := h1.apply_right
          rwa [hgo y hya hyb] at this
        have h2g : ¬ f.SameCycle e1 (f y) := fun h => h2 h.of_apply_right
        have h3g : (f ^ k) (f y) = b := by
          rw [← Equiv.Perm.mul_apply, ← pow_succ]
          exact h3
        exact ihk (f y) h1g h2g h3g
  have anchor_b : g.SameCycle e1 b := by
    have hford : (f ^ (orderOf f - 1)) (f b) = b := by
      rw [← Equiv.Perm.mul_apply, ← pow_succ, Nat.sub_add_cancel (orderOf_pos f),
        pow_orderOf_eq_one]
      rfl
    have hnf : ¬ f.SameCycle e1 (f b) := by
      intro h
      exact hd (h.trans (hB.apply_right).symm)
    exact mergeW (orderOf f - 1) (f b) anchor_fb hnf hford
  have closure : ∀ y, g.SameCycle e1 y → g.SameCycle e1 (f y) := by
    intro y h
    by_cases hya : y = a
    · rw [hya, ← hgb]
      exact anchor_b.apply_right
    · by_cases hyb : y = b
      · rw [hyb, ← hga]
        exact anchor_a.apply_right
      · rw [← hgo y hya hyb]
        exact h.apply_right
  have cover1 : ∀ k : ℕ, g.SameCycle e1 ((f ^ k) e1) := by
    intro k
    induction k with
    | zero => simpa using Equiv.Perm.SameCycle.refl g e1
    | succ k ihk =>
      have hs : (f ^ (k + 1)) e1 = f ((f ^ k) e1) := by
        rw [pow_succ', Equiv.Perm.mul_apply]
      rw [hs]
      exact closure _ ihk
  have cover2 : ∀ k : ℕ, g.SameCycle e1 ((f ^ k) b) := by
    intro k
    induction k with
    | zero => simpa using anchor_b
    | succ k ihk =>
      have hs : (f ^ (k + 1)) b = f ((f ^ k) b) := by
        rw [pow_succ', Equiv.Perm.mul_apply]
      rw [hs]
      exact closure _ ihk
  have revStep : ∀ y, (f.SameCycle e1 y ∨ f.SameCycle e2 y) →
      (f.SameCycle e1 (g y) ∨ f.SameCycle e2 (g y)) := by
    intro y hy
    by_cases hya : y = a
    · rw [hya, hga]
      exact Or.inr hB.apply_right
    · by_cases hyb : y = b
      · rw [hyb, hgb]
        exact Or.inl hA.apply_right
      · rw [hgo y hya hyb]
        rcases hy with h | h
        · exact Or.inl h.apply_right
        · exact Or.inr h.apply_right
  have revCover : ∀ k : ℕ, f.SameCycle e1 ((g ^ k) e1) ∨ f.SameCycle e2 ((g ^ k) e1) := by
    intro k
    induction k with
    | zero => exact Or.inl (by simpa using Equiv.Perm.SameCycle.refl f e1)
    | succ k ihk =>
      have hs : (g ^ (k + 1)) e1 = g ((g ^ k) e1) := by
        rw [pow_succ', Equiv.Perm.mul_apply]
      rw [hs]
      exact revStep _ ihk
  intro x
  constructor
  · intro h
    obtain ⟨i, _, hi⟩ := h.exists_pow_eq'
    exact hi ▸ revCover i
  · intro h
    rcases h with h | h
    · obtain ⟨i, _, hi⟩ := h.exists_pow_eq'
      exact hi ▸ cover1 i
    · have hbx : f.SameCycle b x := hB.symm.trans h
      obtain ⟨i, _, hi⟩ := hbx.exists_pow_eq'
      exact hi ▸ cover2 i

/-- The ring walk of `txn_break` (lines 1077-1109): starting from `cur`,
while the current environment's `env_txncycle` is non-NULL, clear its
pointer (`inTxn := false`), raise its aborted flag, and move on to the
pointer's old target.  (The staged-data rollback inside each environment
is covered by the `Lcenv`-level `txn_break`.)  The fuel only serves Lean
termination: the walk stops by itself when it reaches an environment it
already cleared, after at most one full ring. -/
def breakRingGo {α : Type} [DecidableEq α] (nxt : α → α) :
    Nat → α → (α → Bool) → (α → Bool) → ((α → Bool) × (α → Bool))
  | 0, _, it, ab => (it, ab)
  | fuel + 1, cur, it, ab =>
    if it cur = false then (it, ab)
    else breakRingGo nxt fuel (nxt cur)
      (Function.update it cur false) (Function.update ab cur true)

/-- lifecycle.c `txn_break` at the ring level. -/
def txn_break_ring {α : Type} [DecidableEq α] [Fintype α] (w : TxnWorld α) (e : α) :
    TxnWorld α :=
  let p := breakRingGo w.nxt (Fintype.card α + 1) e w.inTxn w.aborted
  { w with inTxn := p.1, aborted := p.2 }

/-- lifecycle.c `pulleyback_collaborate` (lines 1509-1539): branch on the
two aborted flags; with both clear, splice the rings (the four-pointer
rewiring, by `spliceFun_eq_mul_swap` equal to multiplying by the swap of
the two successors) and return 0, otherwise break the still-active ring if
any and return 1. -/
def pulleyback_collaborate {α : Type} [DecidableEq α] [Fintype α]
    (w : TxnWorld α) (e1 e2 : α) : Int × TxnWorld α :=
  if w.aborted e1 = true then
    if w.aborted e2 = true then (1, w)
    else (1, txn_break_ring w e2)
  else
    if w.aborted e2 = true then (1, txn_break_ring w e1)
    else (0, { w with nxt := w.nxt * Equiv.swap (w.nxt e1) (w.nxt e2) })

/-- The break walk never re-enables a cleared `env_txncycle` and never
clears an aborted flag it has raised. -/
theorem breakRingGo_mono {α : Type} [DecidableEq α] (nxt : α → α) :
    ∀ (fuel : Nat) (cur : α) (it ab : α → Bool) (x : α),
      ((breakRingGo nxt fuel cur it ab).1 x = true → it x = true) ∧
      (ab x = true → (breakRingGo nxt fuel cur it ab).2 x = true) := by
  intro fuel
  induction fuel with
  | zero => intro cur it ab x; exact ⟨fun h => h, fun h => h⟩
  | succ fuel ihf =>
    intro cur it ab x
    by_cases hcur : it cur = false
    · simp [breakRingGo, hcur]
    · have hstep : breakRingGo nxt (fuel + 1) cur it ab =
          breakRingGo nxt fuel (nxt cur)
            (Function.update it cur false) (Function.update ab cur true) := by
        simp [breakRingGo, hcur]
      rw [hstep]
      obtain ⟨h1, h2⟩ := ihf (nxt cur) (Function.update it cur false)
        (Function.update ab cur true) x
      constructor
      · intro h
        have hup := h1 h
        by_cases hx : x = cur
        · rw [hx, Function.update_same] at hup
          exact absurd hup (by simp)
        · rwa [Function.update_noteq hx] at hup
      · intro h
        apply h2
        by_cases hx : x = cur
        · rw [hx, Function.update_same]
        · rwa [Function.update_noteq hx]

/-- Breaking a ring at an in-transaction environment clears that
environment's transaction and raises its aborted flag. -/
theorem txn_break_ring_breaks {α : Type} [DecidableEq α] [Fintype α]
    (w : TxnWorld α) (e : α) (h : w.inTxn e = true) :
    (txn_break_ring w e).inTxn e = false ∧ (txn_break_ring w e).aborted e = true := by
  unfold txn_break_ring
  have hstep : breakRingGo w.nxt (Fintype.card α + 1) e w.inTxn w.aborted =
      breakRingGo w.nxt (Fintype.card α) (w.nxt e)
        (Function.update w.inTxn e false) (Function.update w.aborted e true) := by
    simp [breakRingGo, h]
  simp only [hstep]
  obtain ⟨h1, h2⟩ := breakRingGo_mono w.nxt (Fintype.card α) (w.nxt e)
    (Function.update w.inTxn e false) (Function.update w.aborted e true) e
  constructor
  · by_cases hres : (breakRingGo w.nxt (Fintype.card α) (w.nxt e)
        (Function.update w.inTxn e false) (Function.update w.aborted e true)).1 e = true
    · have hup := h1 hres
      rw [Function.update_same] at hup
      exact absurd hup (by simp)
    · simpa using hres
  · exact h2 (by rw [Function.update_same])

/-- C6: `pulleyback_collaborate (e1, e2)` under the precondition that each
environment is transaction-active or aborted (aborted flag clear implies a
non-NULL `env_txncycle`).  When both are active, on two distinct rings, it
returns 0 and splices the rings into a single ring through `e1` whose
members are exactly the environments of the two input rings (each once, as
members of a permutation ring).  In every other case it returns 1, and the
still-active environment, when there is one, has its transaction broken:
its ring link is cleared and its aborted flag raised; with both aborted
nothing changes at all. -/
theorem c6_collaborate_spec {α : Type} [DecidableEq α] [Fintype α]
    (w : TxnWorld α) (e1 e2 : α)
    (hpre1 : w.aborted e1 = false → w.inTxn e1 = true)
    (hpre2 : w.aborted e2 = false → w.inTxn e2 = true) :
    (w.aborted e1 = false → w.aborted e2 = false → ¬ w.nxt.SameCycle e1 e2 →
      (pulleyback_collaborate w e1 e2).1 = 0 ∧
      (∀ x, (pulleyback_collaborate w e1 e2).2.nxt.SameCycle e1 x ↔
        (w.nxt.SameCycle e1 x ∨ w.nxt.SameCycle e2 x))) ∧
    (w.aborted e1 = true → w.aborted e2 = false →
      (pulleyback_collaborate w e1 e2).1 = 1 ∧
      (pulleyback_collaborate w e1 e2).2.inTxn e2 = false ∧
      (pulleyback_collaborate w e1 e2).2.aborted e2 = true) ∧
    (w.aborted e1 = false → w.aborted e2 = true →
      (pulleyback_collaborate w e1 e2).1 = 1 ∧
      (pulleyback_collaborate w e1 e2).2.inTxn e1 = false ∧
      (pulleyback_collaborate w e1 e2).2.aborted e1 = true) ∧
    (w.aborted e1 = true → w.aborted e2 = true →
      pulleyback_collaborate w e1 e2 = (1, w)) := by
  refine ⟨?_, ?_, ?_, ?_⟩
  · intro h1 h2 hd
    have hcol : pulleyback_collaborate w e1 e2 =
        (0, { w with nxt := w.nxt * Equiv.swap (w.nxt e1) (w.nxt e2) }) := by
      simp [pulleyback_collaborate, h1, h2]
    rw [hcol]
    exact ⟨rfl, splice_merges_rings w.nxt e1 e2 hd⟩
  · intro h1 h2
    have hcol : pulleyback_collaborate w e1 e2 = (1, txn_break_ring w e2) := by
      simp [pulleyback_collaborate, h1, h2]
    rw [hcol]
    obtain ⟨hb1, hb2⟩ := txn_break_ring_breaks w e2 (hpre2 h2)
    exact ⟨rfl, hb1, hb2⟩
  · intro h1 h2
    have hcol : pulleyback_collaborate w e1 e2 = (1, txn_break_ring w e1) := by
      simp [pulleyback_collaborate, h1, h2]
    rw [hcol]
    obtain ⟨hb1, hb2⟩ := txn_break_ring_breaks w e1 (hpre1 h1)
    exact ⟨rfl, hb1, hb2⟩
  · intro h1 h2
    simp [pulleyback_collaborate, h1, h2]

/-- Two environments, each in its own self-ring transaction, neither
aborted. -/
def worldW : TxnWorld (Fin 2) :=
  { nxt := 1, inTxn := fun _ => true, aborted := fun _ => false }

/-- Witness for C6: collaborating the two lone transactions of `worldW`
returns 0 and leaves environments 0 and 1 on one common ring. -/
theorem c6_collaborate_spec_witness :
    (pulleyback_collaborate worldW 0 1).1 = 0 ∧
    (pulleyback_collaborate worldW 0 1).2.nxt.SameCycle 0 1 := by
  have h := (c6_collaborate_spec worldW 0 1 (fun _ => rfl) (fun _ => rfl)).1 rfl rfl
    (by simp [worldW, Equiv.Perm.sameCycle_one])
  exact ⟨h.1, (h.2 1).mpr (Or.inr (Equiv.Perm.SameCycle.refl _ _))⟩
